import Mathlib

/- Formal model of ppymilter's socket servers (src/lib/ppymilter/ppymilterserver.py):
   the length-prefixed framing state machine that AsyncPpyMilterServer's
   ConnectionHandler drives through asynchat's numeric terminators, the blocking
   read loop of ThreadedPpyMilterServer's ConnectionHandler, the accept loop,
   and the response serialization shared by both variants.  Bytes are modelled
   as Nat and byte strings as List Nat; the per-connection milter dispatcher
   (ppymilterbase.PpyMilterDispatcher, an external collaborator) is modelled
   as an abstract function from payloads to the four outcomes named by the
   spec: no response, one response, many responses, or the
   PpyMilterCloseConnection signal. -/

/-- MILTER_LEN_BYTES = 4, from the source (sendmail's mfdef.h). -/
def MILTER_LEN_BYTES : Nat := 4

/-- Model of struct.pack of an unsigned 32-bit big-endian integer: the four
bytes of n, most significant first.  16777216 = 2^24, 65536 = 2^16. -/
def pack32 (n : Nat) : List Nat :=
  [n / 16777216 % 256, n / 65536 % 256, n / 256 % 256, n % 256]

/-- Model of struct.unpack of big-endian unsigned bytes, most significant
first.  In the code it is applied to exactly 4 accumulated bytes. -/
def unpack32 (bs : List Nat) : Nat :=
  bs.foldl (fun acc b => acc * 256 + b) 0

/-- One wire frame: a 4-byte big-endian length prefix followed by the payload,
exactly what `__send_response` pushes (struct.pack of len(response), then
response) and what the read side consumes. -/
def encodeFrame (r : List Nat) : List Nat :=
  pack32 r.length ++ r

/-- Byte stream carrying the given frames back to back. -/
def framesStream (fs : List (List Nat)) : List Nat :=
  (fs.map encodeFrame).flatten

/-- Result of PpyMilterDispatcher.Dispatch as the connection code observes it:
None, a single bytes response, a list of responses, or the raised
PpyMilterCloseConnection exception (the spec's CloseSignal). -/
inductive DispatchResult where
  | noResponse
  | oneResponse (r : List Nat)
  | manyResponses (rs : List (List Nat))
  | closeSignal (reason : String)
  deriving DecidableEq

/-- The per-connection dispatcher, abstracted as a function (the spec's
external Dispatcher collaborator; its implementation lives in
ppymilterbase and is out of scope). -/
abbrev Dispatcher := List Nat → DispatchResult

/-- Logging levels used by the server module (logger.debug not modelled). -/
inductive LogLevel where
  | info
  | error
  deriving DecidableEq

/-- Log events the server emits: the informational close message
(logger.info in read_milter_data / handle), the uncaptured-exception error
message that carries the connection identity (asyncore handle_error, and the
explicit logger.error in ThreadedPpyMilterServer.ConnectionHandler.handle),
and the accept-error warning of AsyncPpyMilterServer.handle_accept. -/
inductive LogEntry where
  | closeInfo (reason : String)
  | connError (cid : Nat)
  | acceptError
  deriving DecidableEq

/-- Level each log event is emitted at in the source. -/
def LogEntry.level : LogEntry → LogLevel
  | .closeInfo _ => .info
  | .connError _ => .error
  | .acceptError => .error

/-- Which found_terminator callback is installed on the asynchat channel:
read_packetlen (awaiting the 4-byte length) or read_milter_data (awaiting
the payload). -/
inductive Phase where
  | awaitLen
  | awaitData
  deriving DecidableEq

/-- State of one AsyncPpyMilterServer.ConnectionHandler: the installed
found_terminator (phase), the joined contents of self.__input, asynchat's
remaining numeric terminator count, whether the channel was closed and
whether it was closed by an uncaught exception (asyncore handle_error),
plus ghost fields recording every payload handed to Dispatch, every byte
pushed to the socket, the log, and the connection identity. -/
@[ext]
structure ConnState where
  phase : Phase
  input : List Nat
  terminator : Nat
  closed : Bool
  errored : Bool
  dispatched : List (List Nat)
  output : List Nat
  log : List LogEntry
  cid : Nat
  deriving DecidableEq

/-- Model of __send_response: `chr(response[0])` raises IndexError on an empty
response before anything is pushed (none); otherwise the 4-byte length prefix
followed by the full payload is pushed (some). -/
def sendResponse (response : List Nat) : Option (List Nat) :=
  match response with
  | [] => none
  | _ :: _ => some (encodeFrame response)

/-- Model of `for r in response: self.__send_response(r)` over a list
response: appends each encoded frame to the output in order; an empty element
raises IndexError there, so the elements already sent stay written, nothing of
the offending element is written, and the Bool result records whether the
loop completed (false = the exception escaped). -/
def sendMany (out : List Nat) (rs : List (List Nat)) : List Nat × Bool :=
  match rs with
  | [] => (out, true)
  | r :: rest =>
    match sendResponse r with
    | none => (out, false)
    | some bs => sendMany (out ++ bs) rest

/-- Model of read_packetlen: unpack the 4 buffered bytes as the packet length,
clear the input buffer, install read_milter_data and set the terminator to the
packet length.  struct.unpack raises on any other byte count (unreachable
under asynchat's terminator discipline); the uncaught exception would reach
asyncore's handle_error, which logs and closes the channel. -/
def readPacketlen (st : ConnState) : ConnState :=
  if st.input.length = MILTER_LEN_BYTES then
    { st with input := [], terminator := unpack32 st.input, phase := Phase.awaitData }
  else
    { st with errored := true, closed := true, log := st.log ++ [LogEntry.connError st.cid] }

/-- Model of read_milter_data: join and clear the input buffer, Dispatch it,
then send the response(s) — a list is sent element by element, a truthy
(non-empty) single response is sent once, a falsy response (None or empty
bytes) sends nothing — and re-arm read_packetlen with a 4-byte terminator.
PpyMilterCloseConnection is caught: log at info level and close, without
re-arming (the terminator stays 0).  An IndexError from __send_response is
not caught here: asyncore's handle_error logs the uncaptured exception with
the channel identity and closes the channel, also without re-arming. -/
def readMilterData (d : Dispatcher) (st : ConnState) : ConnState :=
  let inbuff := st.input
  let st1 : ConnState := { st with input := [], dispatched := st.dispatched ++ [inbuff] }
  match d inbuff with
  | DispatchResult.closeSignal reason =>
      { st1 with closed := true, log := st1.log ++ [LogEntry.closeInfo reason] }
  | DispatchResult.noResponse =>
      { st1 with phase := Phase.awaitLen, terminator := MILTER_LEN_BYTES }
  | DispatchResult.oneResponse r =>
      if r = [] then
        { st1 with phase := Phase.awaitLen, terminator := MILTER_LEN_BYTES }
      else
        match sendResponse r with
        | some bs =>
            { st1 with output := st1.output ++ bs,
                       phase := Phase.awaitLen, terminator := MILTER_LEN_BYTES }
        | none =>
            { st1 with errored := true, closed := true,
                       log := st1.log ++ [LogEntry.connError st1.cid] }
  | DispatchResult.manyResponses rs =>
      match sendMany st1.output rs with
      | (out, true) =>
          { st1 with output := out,
                     phase := Phase.awaitLen, terminator := MILTER_LEN_BYTES }
      | (out, false) =>
          { st1 with output := out, errored := true, closed := true,
                     log := st1.log ++ [LogEntry.connError st1.cid] }

/-- The installed found_terminator callback. -/
def foundTerminator (d : Dispatcher) (st : ConnState) : ConnState :=
  match st.phase with
  | Phase.awaitLen => readPacketlen st
  | Phase.awaitData => readMilterData d st

/-- One byte of asynchat.async_chat.handle_read with a numeric terminator:
a terminator of 0 means no terminator, so the byte is only collected
(collect_incoming_data); otherwise the byte is collected and the terminator
decremented, and when it reaches 0 found_terminator fires (asynchat zeroes
self.terminator before the call).  An uncaught exception from
found_terminator aborts the surrounding loop, modelled by the errored
check.  asynchat consumes a chunk front to back in maximal slices bounded
by the terminator; folding this single-byte step over the chunk collects
the same bytes into the same buffers and fires found_terminator at the
same positions. -/
def feedByte (d : Dispatcher) (st : ConnState) (b : Nat) : ConnState :=
  if st.errored then st
  else if st.terminator = 0 then
    { st with input := st.input ++ [b] }
  else if st.terminator = 1 then
    foundTerminator d { st with input := st.input ++ [b], terminator := 0 }
  else
    { st with input := st.input ++ [b], terminator := st.terminator - 1 }

/-- One handle_read delivering one chunk of freshly received bytes. -/
def handleRead (d : Dispatcher) (st : ConnState) (chunk : List Nat) : ConnState :=
  chunk.foldl (feedByte d) st

/-- Initial channel state set up by ConnectionHandler.__init__:
set_terminator(MILTER_LEN_BYTES), found_terminator = read_packetlen,
empty input buffer. -/
def initConn (cid : Nat) : ConnState :=
  { phase := Phase.awaitLen, input := [], terminator := MILTER_LEN_BYTES,
    closed := false, errored := false, dispatched := [], output := [],
    log := [], cid := cid }

/-- Chunk delivery by the asyncore loop: a closed (or error-closed) channel
is removed from the socket map, so no further reads reach it. -/
def deliverChunk (d : Dispatcher) (st : ConnState) (c : List Nat) : ConnState :=
  if st.closed || st.errored then st else handleRead d st c

/-- A whole connection: the incoming byte stream arrives split into the given
chunks, one handle_read per chunk. -/
def runConn (d : Dispatcher) (cid : Nat) (chunks : List (List Nat)) : ConnState :=
  chunks.foldl (deliverChunk d) (initConn cid)

/- ===== ThreadedPpyMilterServer.ConnectionHandler ===== -/

/-- A blocking socket as the threaded handler sees it: the bytes still to
arrive, and a schedule saying how many bytes the operating system hands back
per recv call (TCP may deliver any nonzero amount up to the requested size;
once the schedule is exhausted, recv delivers everything requested that is
available). -/
structure Sock where
  stream : List Nat
  sched : List Nat
  deriving DecidableEq

/-- Model of self.request.recv(req) on a blocking socket: delivers
min(schedule, req, available) bytes from the front of the stream; an empty
result means the peer closed the connection. -/
def recvSock (s : Sock) (req : Nat) : List Nat × Sock :=
  let w := match s.sched with | [] => req | k :: _ => k
  let n := min (min w req) s.stream.length
  (s.stream.take n, ⟨s.stream.drop n, s.sched.tail⟩)

/-- Model of the payload loop in handle:
`while read < packetlen: partial_data = recv(packetlen - read); ...`.
The loop tolerates arbitrarily small nonzero deliveries; if recv ever
returns no bytes, read stops advancing and the while loop never exits, so
that run returns none (divergence).  The fuel argument equals the remaining
byte count at the top call and strictly dominates it throughout, so the
fuel-exhausted branch is unreachable whenever every recv delivers a byte. -/
def readGo : Nat → Sock → Nat → Option (List Nat × Sock)
  | _, s, 0 => some ([], s)
  | 0, _, _ + 1 => none
  | fuel + 1, s, need + 1 =>
    let pr := recvSock s (need + 1)
    if pr.1.length = 0 then none
    else
      match readGo fuel pr.2 (need + 1 - pr.1.length) with
      | none => none
      | some rest => some (pr.1 ++ rest.1, rest.2)

/-- The payload loop, reading exactly `need` bytes. -/
def readLoop (s : Sock) (need : Nat) : Option (List Nat × Sock) :=
  readGo need s need

/-- Ghost observation of one threaded connection: its socket, the payloads
handed to Dispatch, the bytes sent back, the log, and the connection
identity (repr(self) in the error message). -/
@[ext]
structure TState where
  sock : Sock
  dispatched : List (List Nat)
  output : List Nat
  log : List LogEntry
  cid : Nat
  deriving DecidableEq

/-- How ThreadedPpyMilterServer.ConnectionHandler.handle returns: break on
PpyMilterCloseConnection (socketserver then closes the socket), the outer
`except Exception` swallowing an error (struct.error on a short length
header, or IndexError from __send_response) after logging it, divergence in
the payload loop, or running out of modelling fuel. -/
inductive TOutcome where
  | cleanClose (reason : String)
  | errorClose
  | hang
  | fuelOut
  deriving DecidableEq

/-- One iteration of the `while True` body of
ThreadedPpyMilterServer.ConnectionHandler.handle: one recv(MILTER_LEN_BYTES)
— struct.unpack raises unless it returned exactly 4 bytes, the outer
`except Exception` then logs the uncaptured exception with the connection
identity and the handler returns (Sum.inr, errorClose) — then the payload
loop reads exactly packetlen bytes, the payload is Dispatched, and the
response(s) are sent exactly as in the asynchronous variant (a list element
by element with IndexError escaping on an empty element, a truthy single
response once, nothing for a falsy response).  PpyMilterCloseConnection
breaks out of the loop after an info log (Sum.inr, cleanClose); otherwise
the loop continues (Sum.inl). -/
def threadedIter (d : Dispatcher) (ts : TState) : TState ⊕ (TState × TOutcome) :=
  let hs := recvSock ts.sock MILTER_LEN_BYTES
  if hs.1.length = MILTER_LEN_BYTES then
    match readLoop hs.2 (unpack32 hs.1) with
    | none => Sum.inr ({ ts with sock := hs.2 }, TOutcome.hang)
    | some ds =>
      let ts1 : TState :=
        { ts with sock := ds.2, dispatched := ts.dispatched ++ [ds.1] }
      match d ds.1 with
      | DispatchResult.closeSignal reason =>
          Sum.inr ({ ts1 with log := ts1.log ++ [LogEntry.closeInfo reason] },
            TOutcome.cleanClose reason)
      | DispatchResult.noResponse => Sum.inl ts1
      | DispatchResult.oneResponse r =>
          if r = [] then Sum.inl ts1
          else
            match sendResponse r with
            | some bs => Sum.inl { ts1 with output := ts1.output ++ bs }
            | none =>
                Sum.inr ({ ts1 with log := ts1.log ++ [LogEntry.connError ts1.cid] },
                  TOutcome.errorClose)
      | DispatchResult.manyResponses rs =>
          match sendMany ts1.output rs with
          | (out, true) => Sum.inl { ts1 with output := out }
          | (out, false) =>
              Sum.inr
                ({ ts1 with output := out, log := ts1.log ++ [LogEntry.connError ts1.cid] },
                TOutcome.errorClose)
  else
    Sum.inr ({ ts with sock := hs.2, log := ts.log ++ [LogEntry.connError ts.cid] },
      TOutcome.errorClose)

/-- Model of ThreadedPpyMilterServer.ConnectionHandler.handle: iterate the
loop body until it breaks or fails; the fuel bounds the number of frames
processed in the model. -/
def threadedHandle (d : Dispatcher) : Nat → TState → TState × TOutcome
  | 0, ts => (ts, TOutcome.fuelOut)
  | fuel + 1, ts =>
    match threadedIter d ts with
    | Sum.inl ts1 => threadedHandle d fuel ts1
    | Sum.inr r => r

/-- Fresh threaded connection on a socket with the given pending bytes and
delivery schedule. -/
def initT (cid : Nat) (stream sched : List Nat) : TState :=
  { sock := ⟨stream, sched⟩, dispatched := [], output := [], log := [], cid := cid }

/- ===== Listener (accept loop) and server construction ===== -/

/-- What one iteration of AsyncPpyMilterServer.handle_accept encounters:
a successful accept, accept() returning None, or accept() raising
socket.error. -/
inductive AcceptEvent where
  | conn
  | noneEv
  | sockError
  deriving DecidableEq

/-- Listener state: the connection handlers constructed so far (by identity),
a counter supplying fresh identities, and the listener's log. -/
@[ext]
structure ListenerState where
  handlers : List Nat
  nextId : Nat
  log : List LogEntry
  deriving DecidableEq

/-- Model of AsyncPpyMilterServer.handle_accept: on success construct a
ConnectionHandler; if accept() returned None, just return; if accept()
raised socket.error, log it at error level and return — the dispatcher
keeps serving either way. -/
def handleAccept (st : ListenerState) (e : AcceptEvent) : ListenerState :=
  match e with
  | AcceptEvent.conn =>
      { st with handlers := st.handlers ++ [st.nextId], nextId := st.nextId + 1 }
  | AcceptEvent.noneEv => st
  | AcceptEvent.sockError => { st with log := st.log ++ [LogEntry.acceptError] }

/-- The listener as constructed, before any accept. -/
def initListener : ListenerState := ⟨[], 0, []⟩

/-- The whole asyncore process: the listening dispatcher plus the map of
live connection channels. -/
@[ext]
structure AsyncSystem where
  listener : ListenerState
  conns : List ConnState
  deriving DecidableEq

/-- Readiness events the asyncore loop delivers: the listening socket is
ready to accept, or connection i has bytes to read. -/
inductive SysEvent where
  | acceptEv (e : AcceptEvent)
  | readEv (i : Nat) (chunk : List Nat)

/-- Replace the i-th connection's state, leaving every other one untouched. -/
def updateAt : Nat → (ConnState → ConnState) → List ConnState → List ConnState
  | _, _, [] => []
  | 0, f, st :: rest => f st :: rest
  | i + 1, f, st :: rest => st :: updateAt i f rest

/-- One asyncore readiness callback: handle_accept on the listener (a
successful accept appends a fresh ConnectionHandler to the map), or
handle_read on exactly the ready connection. -/
def sysStep (d : Dispatcher) (sys : AsyncSystem) : SysEvent → AsyncSystem
  | SysEvent.acceptEv AcceptEvent.conn =>
      { listener := handleAccept sys.listener AcceptEvent.conn,
        conns := sys.conns ++ [initConn sys.listener.nextId] }
  | SysEvent.acceptEv e => { sys with listener := handleAccept sys.listener e }
  | SysEvent.readEv i c =>
      { sys with conns := updateAt i (fun st => deliverChunk d st c) sys.conns }

/-- What the constructors configure on the listening socket. -/
@[ext]
structure ServerConfig where
  bindHost : String
  bindPort : Nat
  reuseAddr : Bool
  backlog : Nat
  deriving DecidableEq

/-- AsyncPpyMilterServer.__init__ given a bare numeric port: binds
('', port) — all interfaces — after set_reuse_addr(), and listens with
max_queued_connections. -/
def asyncServerConfig (port maxQueuedConnections : Nat) : ServerConfig :=
  { bindHost := "", bindPort := port, reuseAddr := true,
    backlog := maxQueuedConnections }

/-- The same constructor with max_queued_connections left at its default
value 1024. -/
def asyncServerConfigDefault (port : Nat) : ServerConfig :=
  asyncServerConfig port 1024

/-- ThreadedPpyMilterServer.__init__: binds ('', port) through
ThreadingTCPServer, allow_reuse_address = True, and never touches
request_queue_size, so the listen backlog is the Python socketserver
library default of 5. -/
def threadedServerConfig (port : Nat) : ServerConfig :=
  { bindHost := "", bindPort := port, reuseAddr := true, backlog := 5 }

/- ===== Derived notions used by the statements ===== -/

/-- The channel state read_milter_data runs in when a full frame with payload
P has just been accumulated (asynchat has already zeroed the terminator). -/
def dispatchFrame (d : Dispatcher) (st : ConnState) (P : List Nat) : ConnState :=
  readMilterData d { st with phase := Phase.awaitData, input := P, terminator := 0 }

/-- The bytes a dispatch result causes to be written: nothing for None, one
encoded frame for a truthy single response, nothing for a falsy (empty) one,
and each element encoded in order for a list. -/
def respBytes : DispatchResult → List Nat
  | DispatchResult.noResponse => []
  | DispatchResult.oneResponse r => if r = [] then [] else encodeFrame r
  | DispatchResult.manyResponses rs => (rs.map encodeFrame).flatten
  | DispatchResult.closeSignal _ => []

/-- The dispatcher behaves unexceptionally on payload x: it does not raise
PpyMilterCloseConnection there, and any list it returns has no empty
element (which would make __send_response raise IndexError). -/
def BenignOn (d : Dispatcher) (x : List Nat) : Prop :=
  (∀ reason, d x ≠ DispatchResult.closeSignal reason) ∧
  (∀ rs, d x = DispatchResult.manyResponses rs → ∀ r ∈ rs, r ≠ [])

/-- The channel is armed for the next frame: read_packetlen installed, input
buffer clear, 4-byte terminator, not closed, no error — the state
ConnectionHandler.__init__ establishes and read_milter_data re-establishes. -/
def readyConn (st : ConnState) : Prop :=
  st.phase = Phase.awaitLen ∧ st.input = [] ∧ st.terminator = MILTER_LEN_BYTES ∧
  st.closed = false ∧ st.errored = false

/-- After the asynchat channel closes (terminator left at 0) or errors,
nothing observable can change any more. -/
def badConn (st : ConnState) : Prop :=
  st.errored = true ∨ (st.closed = true ∧ st.terminator = 0)

/-- Reachability invariant of the channel: a closed channel either has its
terminator left at 0 (PpyMilterCloseConnection path) or was closed by an
uncaught exception. -/
def ConnInv (st : ConnState) : Prop :=
  st.closed = true → st.terminator = 0 ∨ st.errored = true

/-- The observable behavior of a channel: dispatches made, bytes written,
closed and error status, and the log. -/
def obsConn (st : ConnState) :
    List (List Nat) × List Nat × Bool × Bool × List LogEntry :=
  (st.dispatched, st.output, st.closed, st.errored, st.log)

/-- Covers p n: the recv deliveries p read exactly n bytes, each delivery
nonempty and no larger than what is still needed (recv never returns more
than requested, and the payload loop requests exactly the missing bytes). -/
def Covers : List Nat → Nat → Prop
  | [], n => n = 0
  | k :: p, n => 1 ≤ k ∧ k ≤ n ∧ Covers p (n - k)

/-- A recv schedule that hands each 4-byte length header to the threaded
handler in one recv and then delivers frame i's payload in the pieces ps i. -/
def frameSched (ps : List (List Nat)) : List Nat :=
  (ps.map (fun p => MILTER_LEN_BYTES :: p)).flatten

/- ===== Basic lemmas ===== -/

theorem pack32_length (n : Nat) : (pack32 n).length = 4 := rfl

theorem unpack32_pack32 (n : Nat) (h : n < 2 ^ 32) : unpack32 (pack32 n) = n := by
  have h' : n < 4294967296 := by norm_num at h; omega
  simp only [unpack32, pack32, List.foldl_cons, List.foldl_nil]
  omega

theorem encodeFrame_length (r : List Nat) : (encodeFrame r).length = 4 + r.length := by
  simp [encodeFrame, pack32]
  omega

theorem sendResponse_of_ne (r : List Nat) (h : r ≠ []) :
    sendResponse r = some (encodeFrame r) := by
  cases r with
  | nil => exact absurd rfl h
  | cons a t => rfl

theorem sendMany_ok :
    ∀ (rs : List (List Nat)) (out : List Nat), (∀ r ∈ rs, r ≠ []) →
      sendMany out rs = (out ++ (rs.map encodeFrame).flatten, true) := by
  intro rs
  induction rs with
  | nil => intro out _; simp [sendMany]
  | cons r rest ih =>
    intro out h
    have hr : r ≠ [] := h r (by simp)
    rw [sendMany, sendResponse_of_ne r hr]
    simp only []
    rw [ih (out ++ encodeFrame r) (fun x hx => h x (by simp [hx]))]
    simp

theorem handleRead_append (d : Dispatcher) (st : ConnState) (a b : List Nat) :
    handleRead d st (a ++ b) = handleRead d (handleRead d st a) b := by
  simp [handleRead, List.foldl_append]

theorem handleRead_collect (d : Dispatcher) :
    ∀ (Q : List Nat) (st : ConnState), st.errored = false → Q.length < st.terminator →
      handleRead d st Q =
        { st with input := st.input ++ Q, terminator := st.terminator - Q.length } := by
  intro Q
  induction Q with
  | nil =>
    intro st he hl
    simp [handleRead]
  | cons b Q ih =>
    intro st he hl
    have hl' : Q.length + 1 < st.terminator := by simpa using hl
    have hstep : handleRead d st (b :: Q) = handleRead d (feedByte d st b) Q := rfl
    have hfb : feedByte d st b =
        { st with input := st.input ++ [b], terminator := st.terminator - 1 } := by
      rw [feedByte, if_neg (by simp [he]), if_neg (by omega), if_neg (by omega)]
    rw [hstep, hfb, ih _ (by simp [he]) (by simp; omega)]
    obtain ⟨ph, inp, term, cl, er, disp, out, lg, cid⟩ := st
    simp
    omega

theorem handleRead_header (d : Dispatcher) (st : ConnState) (L : Nat)
    (hp : st.phase = Phase.awaitLen) (hi : st.input = [])
    (ht : st.terminator = MILTER_LEN_BYTES) (he : st.errored = false) :
    handleRead d st (pack32 L) =
      { st with phase := Phase.awaitData, input := [],
                terminator := unpack32 (pack32 L) } := by
  obtain ⟨ph, inp, term, cl, er, disp, out, lg, cid⟩ := st
  simp only at hp hi ht he
  subst hp hi ht he
  simp [handleRead, pack32, feedByte, foundTerminator, readPacketlen,
    MILTER_LEN_BYTES, unpack32]

theorem handleRead_payload (d : Dispatcher) (a : List Nat) (x : Nat)
    (cl : Bool) (disp : List (List Nat)) (out : List Nat) (lg : List LogEntry) (cid : Nat) :
    handleRead d ⟨Phase.awaitData, [], a.length + 1, cl, false, disp, out, lg, cid⟩ (a ++ [x]) =
      readMilterData d ⟨Phase.awaitData, a ++ [x], 0, cl, false, disp, out, lg, cid⟩ := by
  rw [handleRead_append, handleRead_collect d a _ (by simp) (by simp)]
  have h1 : a.length + 1 - a.length = 1 := by omega
  simp [handleRead, feedByte, h1, foundTerminator]

theorem handleRead_frame (d : Dispatcher) (st : ConnState) (P : List Nat)
    (hr : readyConn st) (hP : P ≠ []) (hL : P.length < 2 ^ 32) :
    handleRead d st (encodeFrame P) = dispatchFrame d st P := by
  obtain ⟨hp, hi, ht, hc, he⟩ := hr
  obtain ⟨a, x, rfl⟩ : ∃ a x, P = a ++ [x] :=
    ⟨P.dropLast, P.getLast hP, (List.dropLast_append_getLast hP).symm⟩
  rw [encodeFrame, handleRead_append, handleRead_header d st (a ++ [x]).length hp hi ht he,
    unpack32_pack32 _ hL]
  obtain ⟨ph, inp, term, cl, er, disp, out, lg, cid⟩ := st
  simp only at hp hi ht he
  subst hp hi ht he
  have hlen : (a ++ [x]).length = a.length + 1 := by simp
  rw [hlen, handleRead_payload d a x cl disp out lg cid]
  simp [dispatchFrame]

theorem dispatchFrame_dispatched (d : Dispatcher) (st : ConnState) (P : List Nat) :
    (dispatchFrame d st P).dispatched = st.dispatched ++ [P] := by
  obtain ⟨ph, inp, term, cl, er, disp, out, lg, cid⟩ := st
  simp only [dispatchFrame, readMilterData]
  cases hd : d P with
  | noResponse => simp
  | closeSignal reason => simp
  | oneResponse r =>
    by_cases hr : r = []
    · simp [hr]
    · simp [hr, sendResponse_of_ne r hr]
  | manyResponses rs =>
    rcases hs : sendMany out rs with ⟨o, b⟩
    cases b <;> simp [hs]

theorem dispatchFrame_benign (d : Dispatcher) (st : ConnState) (P : List Nat)
    (hb : BenignOn d P) :
    dispatchFrame d st P =
      { st with input := [], phase := Phase.awaitLen, terminator := MILTER_LEN_BYTES,
                dispatched := st.dispatched ++ [P],
                output := st.output ++ respBytes (d P) } := by
  obtain ⟨hc, hm⟩ := hb
  obtain ⟨ph, inp, term, cl, er, disp, out, lg, cid⟩ := st
  simp only [dispatchFrame, readMilterData]
  cases hd : d P with
  | closeSignal reason => exact absurd hd (hc reason)
  | noResponse => simp [respBytes, hd]
  | oneResponse r =>
    by_cases hr : r = []
    · simp [hr, respBytes, hd]
    · simp [hr, sendResponse_of_ne r hr, respBytes, hd]
  | manyResponses rs =>
    have hsm := sendMany_ok rs out (hm rs hd)
    simp [respBytes, hd, hsm]

theorem handleRead_frames (d : Dispatcher) :
    ∀ (fs : List (List Nat)) (st : ConnState), readyConn st →
      (∀ F ∈ fs, F ≠ [] ∧ F.length < 2 ^ 32 ∧ BenignOn d F) →
      handleRead d st (framesStream fs) =
        { st with dispatched := st.dispatched ++ fs,
                  output := st.output ++ (fs.map (fun F => respBytes (d F))).flatten } := by
  intro fs
  induction fs with
  | nil =>
    intro st _ _
    simp [framesStream, handleRead]
  | cons F fs ih =>
    intro st hr hall
    obtain ⟨hF, hL, hb⟩ := hall F (by simp)
    obtain ⟨hp, hi, ht, hc, he⟩ := hr
    obtain ⟨ph, inp, term, cl, er, disp, out, lg, cid⟩ := st
    simp only at hp hi ht hc he
    subst hp hi ht hc he
    have hstream : framesStream (F :: fs) = encodeFrame F ++ framesStream fs := by
      simp [framesStream]
    rw [hstream, handleRead_append,
      handleRead_frame d _ F ⟨rfl, rfl, rfl, rfl, rfl⟩ hF hL,
      dispatchFrame_benign d _ F hb,
      ih _ (by simp [readyConn]) (fun G hG => hall G (by simp [hG]))]
    simp

theorem feedByte_bad (d : Dispatcher) (st : ConnState) (b : Nat) (h : badConn st) :
    obsConn (feedByte d st b) = obsConn st ∧ badConn (feedByte d st b) := by
  rcases h with he | ⟨hc, ht⟩
  · rw [feedByte, if_pos he]
    exact ⟨rfl, Or.inl he⟩
  · by_cases he : st.errored = true
    · rw [feedByte, if_pos he]
      exact ⟨rfl, Or.inl he⟩
    · rw [feedByte, if_neg he, if_pos ht]
      exact ⟨by simp [obsConn], Or.inr ⟨by simp [hc], by simp [ht]⟩⟩

theorem handleRead_bad (d : Dispatcher) :
    ∀ (c : List Nat) (st : ConnState), badConn st →
      obsConn (handleRead d st c) = obsConn st ∧ badConn (handleRead d st c) := by
  intro c
  induction c with
  | nil => intro st h; exact ⟨rfl, h⟩
  | cons b c ih =>
    intro st h
    have h1 := feedByte_bad d st b h
    have h2 := ih (feedByte d st b) h1.2
    exact ⟨h2.1.trans h1.1, h2.2⟩

theorem foundTerminator_inv (d : Dispatcher) (st : ConnState)
    (hc : st.closed = false) (ht : st.terminator = 0) :
    ConnInv (foundTerminator d st) := by
  obtain ⟨ph, inp, term, cl, er, disp, out, lg, cid⟩ := st
  simp only at hc ht
  subst hc ht
  cases ph with
  | awaitLen =>
    simp only [foundTerminator, readPacketlen]
    by_cases hl : inp.length = MILTER_LEN_BYTES
    · simp [hl, ConnInv]
    · simp [hl, ConnInv]
  | awaitData =>
    simp only [foundTerminator, readMilterData]
    cases d inp with
    | closeSignal reason => simp [ConnInv]
    | noResponse => simp [ConnInv]
    | oneResponse r =>
      by_cases hr : r = []
      · simp [hr, ConnInv]
      · cases hs : sendResponse r with
        | none => simp [hr, hs, ConnInv]
        | some bs => simp [hr, hs, ConnInv]
    | manyResponses rs =>
      rcases hs : sendMany out rs with ⟨o, bb⟩
      cases bb <;> simp [hs, ConnInv]

theorem feedByte_inv (d : Dispatcher) (st : ConnState) (b : Nat) (h : ConnInv st) :
    ConnInv (feedByte d st b) := by
  by_cases he : st.errored = true
  · rw [feedByte, if_pos he]
    exact h
  · by_cases ht0 : st.terminator = 0
    · rw [feedByte, if_neg he, if_pos ht0]
      intro hcl
      simp only at hcl
      rcases h hcl with h1 | h2
      · exact Or.inl (by simp [h1])
      · exact Or.inr (by simp [h2])
    · have hcl : st.closed = false := by
        cases hcc : st.closed
        · rfl
        · rcases h hcc with h1 | h2
          · exact absurd h1 ht0
          · exact absurd h2 he
      by_cases ht1 : st.terminator = 1
      · rw [feedByte, if_neg he, if_neg ht0, if_pos ht1]
        exact foundTerminator_inv d _ (by simp [hcl]) (by simp)
      · rw [feedByte, if_neg he, if_neg ht0, if_neg ht1]
        intro hcc
        simp only at hcc
        simp [hcl] at hcc

theorem handleRead_inv (d : Dispatcher) :
    ∀ (c : List Nat) (st : ConnState), ConnInv st → ConnInv (handleRead d st c) := by
  intro c
  induction c with
  | nil => intro st h; exact h
  | cons b c ih => intro st h; exact ih _ (feedByte_inv d st b h)

theorem foldl_deliverChunk_stuck (d : Dispatcher) :
    ∀ (chunks : List (List Nat)) (st : ConnState),
      (st.closed = true ∨ st.errored = true) → chunks.foldl (deliverChunk d) st = st := by
  intro chunks
  induction chunks with
  | nil => intro st _; rfl
  | cons c rest ih =>
    intro st h
    have hs : deliverChunk d st c = st := by
      rw [deliverChunk, if_pos]
      rcases h with h | h <;> simp [h]
    rw [List.foldl_cons, hs, ih st h]

theorem foldl_handleRead_bad (d : Dispatcher) :
    ∀ (chunks : List (List Nat)) (st : ConnState), badConn st →
      obsConn (chunks.foldl (handleRead d) st) = obsConn st := by
  intro chunks
  induction chunks with
  | nil => intro st _; rfl
  | cons c rest ih =>
    intro st h
    have h1 := handleRead_bad d c st h
    rw [List.foldl_cons, ih _ h1.2, h1.1]

theorem runConn_foldl_obs (d : Dispatcher) :
    ∀ (chunks : List (List Nat)) (st : ConnState), ConnInv st →
      obsConn (chunks.foldl (deliverChunk d) st) =
        obsConn (chunks.foldl (handleRead d) st) := by
  intro chunks
  induction chunks with
  | nil => intro st _; rfl
  | cons c rest ih =>
    intro st hinv
    by_cases hbad : st.closed = true ∨ st.errored = true
    · have hb : badConn st := by
        rcases hbad with hc | he
        · rcases hinv hc with ht | he
          · exact Or.inr ⟨hc, ht⟩
          · exact Or.inl he
        · exact Or.inl he
      rw [List.foldl_cons, List.foldl_cons]
      have hskip : deliverChunk d st c = st := by
        rw [deliverChunk, if_pos]
        rcases hbad with h | h <;> simp [h]
      rw [hskip, foldl_deliverChunk_stuck d rest st hbad,
        foldl_handleRead_bad d rest _ (handleRead_bad d c st hb).2,
        (handleRead_bad d c st hb).1]
    · push_neg at hbad
      have hc : st.closed = false := by
        cases hcc : st.closed
        · rfl
        · exact absurd hcc hbad.1
      have he : st.errored = false := by
        cases hee : st.errored
        · rfl
        · exact absurd hee hbad.2
      rw [List.foldl_cons, List.foldl_cons]
      have hstep : deliverChunk d st c = handleRead d st c := by
        rw [deliverChunk, if_neg]
        simp [hc, he]
      rw [hstep, ih _ (handleRead_inv d c st hinv)]

theorem readGo_covers :
    ∀ (p : List Nat) (n : Nat) (l rest sd : List Nat) (fuel : Nat),
      n ≤ fuel → Covers p n → l.length = n →
      readGo fuel ⟨l ++ rest, p ++ sd⟩ n = some (l, ⟨rest, sd⟩) := by
  intro p
  induction p with
  | nil =>
    intro n l rest sd fuel hf hc hl
    have hn : n = 0 := hc
    subst hn
    have hl0 : l = [] := List.length_eq_zero.mp hl
    subst hl0
    cases fuel <;> simp [readGo]
  | cons k p ih =>
    intro n l rest sd fuel hf hc hl
    obtain ⟨hk1, hkn, hcov⟩ := hc
    obtain ⟨m, rfl⟩ : ∃ m, n = m + 1 := ⟨n - 1, by omega⟩
    obtain ⟨f, rfl⟩ : ∃ f, fuel = f + 1 := ⟨fuel - 1, by omega⟩
    have hw : recvSock ⟨l ++ rest, (k :: p) ++ sd⟩ (m + 1) =
        (l.take k, ⟨l.drop k ++ rest, p ++ sd⟩) := by
      simp only [recvSock, List.cons_append, List.tail_cons]
      have hlen : (l ++ rest).length = m + 1 + rest.length := by simp [hl]
      have hmin : min (min k (m + 1)) (l ++ rest).length = k := by
        rw [hlen]; omega
      rw [hmin, List.take_append_of_le_length (by omega),
        List.drop_append_of_le_length (by omega)]
    have htk : (l.take k).length = k := by
      rw [List.length_take]; omega
    simp only [readGo, hw, htk]
    rw [if_neg (by omega)]
    have hrec := ih (m + 1 - k) (l.drop k) rest sd f (by omega) hcov
      (by rw [List.length_drop]; omega)
    rw [hrec]
    simp [List.take_append_drop]

theorem readLoop_covers (p : List Nat) (l rest sd : List Nat)
    (hc : Covers p l.length) :
    readLoop ⟨l ++ rest, p ++ sd⟩ l.length = some (l, ⟨rest, sd⟩) :=
  readGo_covers p l.length l rest sd l.length le_rfl hc rfl

theorem recvSock_header (L : Nat) (X S : List Nat) :
    recvSock ⟨pack32 L ++ X, MILTER_LEN_BYTES :: S⟩ MILTER_LEN_BYTES =
      (pack32 L, ⟨X, S⟩) := by
  simp only [recvSock, List.tail_cons, MILTER_LEN_BYTES]
  have h1 : min (min 4 4) (pack32 L ++ X).length = 4 := by
    simp [pack32]
  rw [h1, List.take_left' (pack32_length L), List.drop_left' (pack32_length L)]

theorem threadedIter_empty (d : Dispatcher) (disp0 : List (List Nat)) (out0 : List Nat)
    (lg0 : List LogEntry) (cid : Nat) :
    threadedIter d ⟨⟨[], []⟩, disp0, out0, lg0, cid⟩ =
      Sum.inr (⟨⟨[], []⟩, disp0, out0, lg0 ++ [LogEntry.connError cid], cid⟩,
        TOutcome.errorClose) := by
  simp [threadedIter, recvSock, MILTER_LEN_BYTES]

theorem threadedIter_frame (d : Dispatcher) (F X p S : List Nat)
    (disp0 : List (List Nat)) (out0 : List Nat) (lg0 : List LogEntry) (cid : Nat)
    (hL : F.length < 2 ^ 32) (hcov : Covers p F.length) :
    threadedIter d ⟨⟨pack32 F.length ++ (F ++ X), MILTER_LEN_BYTES :: (p ++ S)⟩,
        disp0, out0, lg0, cid⟩ =
      (match d F with
       | DispatchResult.closeSignal reason =>
           Sum.inr (⟨⟨X, S⟩, disp0 ++ [F], out0,
             lg0 ++ [LogEntry.closeInfo reason], cid⟩, TOutcome.cleanClose reason)
       | DispatchResult.noResponse => Sum.inl ⟨⟨X, S⟩, disp0 ++ [F], out0, lg0, cid⟩
       | DispatchResult.oneResponse r =>
           if r = [] then Sum.inl ⟨⟨X, S⟩, disp0 ++ [F], out0, lg0, cid⟩
           else
             match sendResponse r with
             | some bs => Sum.inl ⟨⟨X, S⟩, disp0 ++ [F], out0 ++ bs, lg0, cid⟩
             | none => Sum.inr (⟨⟨X, S⟩, disp0 ++ [F], out0,
                 lg0 ++ [LogEntry.connError cid], cid⟩, TOutcome.errorClose)
       | DispatchResult.manyResponses rs =>
           match sendMany out0 rs with
           | (o, true) => Sum.inl ⟨⟨X, S⟩, disp0 ++ [F], o, lg0, cid⟩
           | (o, false) => Sum.inr (⟨⟨X, S⟩, disp0 ++ [F], o,
               lg0 ++ [LogEntry.connError cid], cid⟩, TOutcome.errorClose)) := by
  simp only [threadedIter, recvSock_header F.length (F ++ X) (p ++ S)]
  rw [if_pos (by simp [pack32_length, MILTER_LEN_BYTES]),
    unpack32_pack32 F.length hL, readLoop_covers p F X S hcov]

theorem threadedHandle_frames (d : Dispatcher) :
    ∀ (ps fs : List (List Nat)),
      List.Forall₂ (fun p F => Covers p F.length) ps fs →
      (∀ F ∈ fs, F.length < 2 ^ 32 ∧ BenignOn d F) →
      ∀ (cid : Nat) (disp0 : List (List Nat)) (out0 : List Nat) (lg0 : List LogEntry),
      threadedHandle d (fs.length + 1)
          ⟨⟨framesStream fs, frameSched ps⟩, disp0, out0, lg0, cid⟩ =
        (⟨⟨[], []⟩, disp0 ++ fs,
          out0 ++ (fs.map (fun F => respBytes (d F))).flatten,
          lg0 ++ [LogEntry.connError cid], cid⟩,
         TOutcome.errorClose) := by
  intro ps fs hf
  have hunf : ∀ (f : Nat) (ts : TState), threadedHandle d (f + 1) ts =
      match threadedIter d ts with
      | Sum.inl ts1 => threadedHandle d f ts1
      | Sum.inr r => r := fun f ts => rfl
  induction hf with
  | nil =>
    intro hall cid disp0 out0 lg0
    have h0 : framesStream [] = ([] : List Nat) := rfl
    have h1 : frameSched [] = ([] : List Nat) := rfl
    rw [h0, h1]
    rw [List.length_nil, hunf, threadedIter_empty]
    simp
  | @cons p F ps fs hpF hrest ih =>
    intro hall cid disp0 out0 lg0
    obtain ⟨hL, hb⟩ := hall F (by simp)
    have hstream : framesStream (F :: fs) = pack32 F.length ++ (F ++ framesStream fs) := by
      simp [framesStream, encodeFrame]
    have hsched : frameSched (p :: ps) = MILTER_LEN_BYTES :: (p ++ frameSched ps) := by
      simp [frameSched]
    have hlen1 : (F :: fs).length + 1 = (fs.length + 1) + 1 := by simp
    rw [hlen1, hstream, hsched, hunf,
      threadedIter_frame d F (framesStream fs) p (frameSched ps) disp0 out0 lg0 cid hL hpF]
    cases hd : d F with
    | closeSignal reason => exact absurd hd (hb.1 reason)
    | noResponse =>
      show threadedHandle d (fs.length + 1)
          ⟨⟨framesStream fs, frameSched ps⟩, disp0 ++ [F], out0, lg0, cid⟩ = _
      rw [ih (fun G hG => hall G (by simp [hG])) cid (disp0 ++ [F]) out0 lg0]
      simp [hd, respBytes]
    | oneResponse r =>
      by_cases hr : r = []
      · subst hr
        show threadedHandle d (fs.length + 1)
            ⟨⟨framesStream fs, frameSched ps⟩, disp0 ++ [F], out0, lg0, cid⟩ = _
        rw [ih (fun G hG => hall G (by simp [hG])) cid (disp0 ++ [F]) out0 lg0]
        simp [hd, respBytes]
      · simp only []
        rw [if_neg hr, sendResponse_of_ne r hr]
        show threadedHandle d (fs.length + 1)
            ⟨⟨framesStream fs, frameSched ps⟩, disp0 ++ [F], out0 ++ encodeFrame r, lg0, cid⟩ = _
        rw [ih (fun G hG => hall G (by simp [hG])) cid (disp0 ++ [F]) (out0 ++ encodeFrame r) lg0]
        simp [hd, hr, respBytes]
    | manyResponses rs =>
      simp only []
      rw [sendMany_ok rs out0 (hb.2 rs hd)]
      show threadedHandle d (fs.length + 1)
          ⟨⟨framesStream fs, frameSched ps⟩, disp0 ++ [F],
            out0 ++ (rs.map encodeFrame).flatten, lg0, cid⟩ = _
      rw [ih (fun G hG => hall G (by simp [hG])) cid (disp0 ++ [F])
        (out0 ++ (rs.map encodeFrame).flatten) lg0]
      simp [hd, respBytes]

theorem runConn_obs (d : Dispatcher) (cid : Nat) (chunks : List (List Nat)) :
    obsConn (runConn d cid chunks) =
      obsConn (handleRead d (initConn cid) chunks.flatten) := by
  rw [runConn, runConn_foldl_obs d chunks (initConn cid) (by intro h; simp [initConn] at h)]
  congr 1
  rw [handleRead, List.foldl_flatten]
  rfl

theorem dispatchFrame_close (d : Dispatcher) (st : ConnState) (P : List Nat) (reason : String)
    (hd : d P = DispatchResult.closeSignal reason) :
    dispatchFrame d st P =
      { st with phase := Phase.awaitData, input := [], terminator := 0, closed := true,
                dispatched := st.dispatched ++ [P],
                log := st.log ++ [LogEntry.closeInfo reason] } := by
  obtain ⟨ph, inp, term, cl, er, disp, out, lg, cid⟩ := st
  simp [dispatchFrame, readMilterData, hd]

theorem sendMany_err_mem :
    ∀ (rs : List (List Nat)) (out : List Nat), [] ∈ rs → (sendMany out rs).2 = false := by
  intro rs
  induction rs with
  | nil => intro out h; simp at h
  | cons r rest ih =>
    intro out h
    by_cases hr : r = []
    · subst hr; rfl
    · have hmem : ([] : List Nat) ∈ rest := by
        rcases List.mem_cons.mp h with h1 | h1
        · exact absurd h1.symm hr
        · exact h1
      rw [sendMany, sendResponse_of_ne r hr]
      exact ih (out ++ encodeFrame r) hmem

theorem dispatchFrame_manyErr (d : Dispatcher) (st : ConnState) (P : List Nat)
    (rs : List (List Nat)) (hd : d P = DispatchResult.manyResponses rs)
    (hmem : [] ∈ rs) :
    (dispatchFrame d st P).errored = true ∧ (dispatchFrame d st P).closed = true ∧
      (dispatchFrame d st P).log = st.log ++ [LogEntry.connError st.cid] := by
  obtain ⟨ph, inp, term, cl, er, disp, out, lg, cid⟩ := st
  simp only [dispatchFrame, readMilterData]
  rcases hs : sendMany out rs with ⟨o, bb⟩
  have hbb : bb = false := by
    have h2 := sendMany_err_mem rs out hmem
    rw [hs] at h2
    exact h2
  subst hbb
  simp [hd, hs]

theorem dispatchFrame_emptyHead (d : Dispatcher) (st : ConnState) (P : List Nat)
    (rs : List (List Nat)) (hd : d P = DispatchResult.manyResponses ([] :: rs)) :
    dispatchFrame d st P =
      { st with phase := Phase.awaitData, input := [], terminator := 0, closed := true,
                errored := true, dispatched := st.dispatched ++ [P],
                log := st.log ++ [LogEntry.connError st.cid] } := by
  obtain ⟨ph, inp, term, cl, er, disp, out, lg, cid⟩ := st
  have hsm : sendMany out ([] :: rs) = (out, false) := rfl
  simp [dispatchFrame, readMilterData, hd, hsm]

theorem threadedHandle_close (d : Dispatcher) (fuel cid : Nat) (P rest p : List Nat)
    (reason : String) (hL : P.length < 2 ^ 32) (hcov : Covers p P.length)
    (hd : d P = DispatchResult.closeSignal reason) :
    threadedHandle d (fuel + 1)
        (initT cid (encodeFrame P ++ rest) (MILTER_LEN_BYTES :: p)) =
      (⟨⟨rest, []⟩, [P], [], [LogEntry.closeInfo reason], cid⟩,
        TOutcome.cleanClose reason) := by
  have hshape : initT cid (encodeFrame P ++ rest) (MILTER_LEN_BYTES :: p) =
      ⟨⟨pack32 P.length ++ (P ++ rest), MILTER_LEN_BYTES :: (p ++ [])⟩, [], [], [], cid⟩ := by
    simp [initT, encodeFrame]
  rw [hshape]
  have hunf : threadedHandle d (fuel + 1)
      ⟨⟨pack32 P.length ++ (P ++ rest), MILTER_LEN_BYTES :: (p ++ [])⟩, [], [], [], cid⟩ =
      match threadedIter d
        ⟨⟨pack32 P.length ++ (P ++ rest), MILTER_LEN_BYTES :: (p ++ [])⟩, [], [], [], cid⟩ with
      | Sum.inl ts1 => threadedHandle d fuel ts1
      | Sum.inr r => r := rfl
  rw [hunf, threadedIter_frame d P rest p [] [] [] [] cid hL hcov, hd]
  simp

theorem threadedHandle_headerError (d : Dispatcher) (fuel : Nat) (ts : TState)
    (h : (recvSock ts.sock MILTER_LEN_BYTES).1.length ≠ MILTER_LEN_BYTES) :
    threadedHandle d (fuel + 1) ts =
      ({ ts with sock := (recvSock ts.sock MILTER_LEN_BYTES).2, log := ts.log ++ [LogEntry.connError ts.cid] },
        TOutcome.errorClose) := by
  have hunf : threadedHandle d (fuel + 1) ts =
      match threadedIter d ts with
      | Sum.inl ts1 => threadedHandle d fuel ts1
      | Sum.inr r => r := rfl
  rw [hunf]
  simp only [threadedIter]
  rw [if_neg h]

theorem threadedHandle_manyErrHead (d : Dispatcher) (fuel cid : Nat)
    (P rest p : List Nat) (rs : List (List Nat))
    (hL : P.length < 2 ^ 32) (hcov : Covers p P.length)
    (hd : d P = DispatchResult.manyResponses ([] :: rs)) :
    threadedHandle d (fuel + 1) (initT cid (encodeFrame P ++ rest) (MILTER_LEN_BYTES :: p)) =
      (⟨⟨rest, []⟩, [P], [], [LogEntry.connError cid], cid⟩, TOutcome.errorClose) := by
  have hshape : initT cid (encodeFrame P ++ rest) (MILTER_LEN_BYTES :: p) =
      ⟨⟨pack32 P.length ++ (P ++ rest), MILTER_LEN_BYTES :: (p ++ [])⟩, [], [], [], cid⟩ := by
    simp [initT, encodeFrame]
  rw [hshape]
  have hunf : threadedHandle d (fuel + 1)
      ⟨⟨pack32 P.length ++ (P ++ rest), MILTER_LEN_BYTES :: (p ++ [])⟩, [], [], [], cid⟩ =
      match threadedIter d
        ⟨⟨pack32 P.length ++ (P ++ rest), MILTER_LEN_BYTES :: (p ++ [])⟩, [], [], [], cid⟩ with
      | Sum.inl ts1 => threadedHandle d fuel ts1
      | Sum.inr r => r := rfl
  rw [hunf, threadedIter_frame d P rest p [] [] [] [] cid hL hcov, hd]
  have hsm : sendMany ([] : List Nat) ([] :: rs) = ([], false) := rfl
  simp [hsm]

theorem updateAt_ne :
    ∀ (l : List ConnState) (i j : Nat) (f : ConnState → ConnState), j ≠ i →
      (updateAt i f l)[j]? = l[j]? := by
  intro l
  induction l with
  | nil => intro i j f _; cases i <;> simp [updateAt]
  | cons st rest ih =>
    intro i j f h
    cases i with
    | zero =>
      cases j with
      | zero => exact absurd rfl h
      | succ j => simp [updateAt]
    | succ i =>
      cases j with
      | zero => simp [updateAt]
      | succ j => simp [updateAt, ih i j f (by omega)]

theorem handleAccept_run :
    ∀ (events : List AcceptEvent) (st : ListenerState),
      (events.foldl handleAccept st).handlers =
          st.handlers ++ List.range' st.nextId (events.count AcceptEvent.conn) ∧
        (events.foldl handleAccept st).log =
          st.log ++ List.replicate (events.count AcceptEvent.sockError) LogEntry.acceptError ∧
        (events.foldl handleAccept st).nextId =
          st.nextId + events.count AcceptEvent.conn := by
  intro events
  induction events with
  | nil => intro st; simp
  | cons e rest ih =>
    intro st
    cases e with
    | conn =>
      obtain ⟨h1, h2, h3⟩ := ih (handleAccept st AcceptEvent.conn)
      rw [List.foldl_cons] at *
      refine ⟨?_, ?_, ?_⟩
      · rw [h1]
        simp [handleAccept, List.range'_succ]
      · rw [h2]
        simp [handleAccept]
      · rw [h3]
        simp [handleAccept]
        omega
    | noneEv =>
      obtain ⟨h1, h2, h3⟩ := ih st
      rw [List.foldl_cons]
      refine ⟨?_, ?_, ?_⟩ <;> simp [handleAccept, h1, h2, h3]
    | sockError =>
      obtain ⟨h1, h2, h3⟩ := ih (handleAccept st AcceptEvent.sockError)
      rw [List.foldl_cons]
      refine ⟨?_, ?_, ?_⟩
      · rw [h1]
        simp [handleAccept]
      · rw [h2]
        simp [handleAccept, List.replicate_succ]
      · rw [h3]
        simp [handleAccept]

/-- A dispatcher that always returns None, as a milter class handling no
commands would. -/
def dNone : Dispatcher := fun _ => DispatchResult.noResponse

theorem dNone_benign : ∀ x, BenignOn dNone x := by
  intro x
  constructor
  · intro reason h
    cases h
  · intro rs h
    cases h

/- ===== Claim theorems ===== -/

/-- C1 (amended): for every nonempty byte sequence P with length below 2^32,
encoding P as a 4-byte big-endian length prefix plus payload and feeding the
bytes to the asynchronous frame decoder in arbitrary chunks — one byte at a
time included — makes the connection dispatch exactly the completed frame P,
whatever the dispatcher replies.  The zero-length payload is excluded: its
frame makes read_packetlen call set_terminator(0), which asynchat treats as
"no terminator", so the empty frame is never completed (see the
counterexample). -/
theorem c1_frame_roundtrip (d : Dispatcher) (cid : Nat) (P : List Nat)
    (chunks : List (List Nat)) (hP : P ≠ []) (hL : P.length < 2 ^ 32)
    (hchunks : chunks.flatten = encodeFrame P) :
    (runConn d cid chunks).dispatched = [P] := by
  have h := runConn_obs d cid chunks
  simp only [obsConn, Prod.mk.injEq] at h
  rw [h.1, hchunks, handleRead_frame d _ P (by simp [readyConn, initConn]) hP hL,
    dispatchFrame_dispatched]
  simp [initConn]

/-- Witness for C1: the frame with payload [72] delivered one byte at a time. -/
theorem c1_frame_roundtrip_witness :
    ([72] : List Nat) ≠ [] ∧ ([72] : List Nat).length < 2 ^ 32 ∧
      ([[0], [0], [0], [1], [72]] : List (List Nat)).flatten = encodeFrame [72] ∧
      (runConn dNone 0 [[0], [0], [0], [1], [72]]).dispatched = [[72]] :=
  ⟨by decide, by decide, by decide,
    c1_frame_roundtrip dNone 0 [72] [[0], [0], [0], [1], [72]]
      (by decide) (by decide) (by decide)⟩

/-- Counterexample to C1 as stated: the empty payload (L = 0).  Its encoded
frame [0,0,0,0] leaves the asynchat decoder collecting forever, so nothing is
dispatched instead of the completed empty frame the claim requires. -/
theorem c1_zero_length_counterexample :
    ([[0, 0, 0, 0]] : List (List Nat)).flatten = encodeFrame [] ∧
      (runConn dNone 0 [[0, 0, 0, 0]]).dispatched = [] ∧
      ¬((runConn dNone 0 [[0, 0, 0, 0]]).dispatched = [[]]) :=
  ⟨by decide, by decide, by decide⟩

/-- C2 (amended): N frames sent back to back produce exactly N Dispatch calls
with the payloads at the frame boundaries in arrival order, (a) in the
asynchronous server for every fragmentation of the byte stream into read
chunks, provided every frame is nonempty (a zero-length frame stalls the
asynchat decoder, claim C3), and (b) in the threaded server for every
fragmentation of the payload reads, provided each 4-byte length header is
returned whole by its recv — the threaded handler passes one recv's result
straight to struct.unpack, so a split header raises and ends the connection
instead of being reassembled (see the counterexample). -/
theorem c2_frames_dispatch (d : Dispatcher) (cid : Nat) (fs : List (List Nat)) :
    ((∀ F ∈ fs, F ≠ [] ∧ F.length < 2 ^ 32 ∧ BenignOn d F) →
      ∀ chunks : List (List Nat), chunks.flatten = framesStream fs →
        (runConn d cid chunks).dispatched = fs) ∧
    ((∀ F ∈ fs, F.length < 2 ^ 32 ∧ BenignOn d F) →
      ∀ ps : List (List Nat), List.Forall₂ (fun p F => Covers p F.length) ps fs →
        (threadedHandle d (fs.length + 1)
          (initT cid (framesStream fs) (frameSched ps))).1.dispatched = fs ∧
        (threadedHandle d (fs.length + 1)
          (initT cid (framesStream fs) (frameSched ps))).2 = TOutcome.errorClose) := by
  constructor
  · intro hall chunks hchunks
    have h := runConn_obs d cid chunks
    simp only [obsConn, Prod.mk.injEq] at h
    rw [h.1, hchunks, handleRead_frames d fs (initConn cid) (by simp [readyConn, initConn]) hall]
    simp [initConn]
  · intro hall ps hps
    have hit : initT cid (framesStream fs) (frameSched ps) =
        ⟨⟨framesStream fs, frameSched ps⟩, [], [], [], cid⟩ := rfl
    rw [hit, threadedHandle_frames d ps fs hps hall cid [] [] []]
    simp

/-- Witness for C2: two frames, chunk boundaries aligned with nothing, and a
threaded schedule that splits the first payload into single bytes. -/
theorem c2_frames_dispatch_witness :
    (runConn dNone 0 [[0, 0], [0, 2, 66], [67, 0, 0, 0], [1, 65]]).dispatched =
        [[66, 67], [65]] ∧
      (threadedHandle dNone 3
          (initT 0 (framesStream [[66, 67], [65]]) (frameSched [[1, 1], [1]]))).1.dispatched =
        [[66, 67], [65]] := by
  constructor
  · exact (c2_frames_dispatch dNone 0 [[66, 67], [65]]).1
      (by
        intro F hF
        simp only [List.mem_cons, List.not_mem_nil, or_false] at hF
        rcases hF with rfl | rfl
        · exact ⟨by decide, by decide, dNone_benign _⟩
        · exact ⟨by decide, by decide, dNone_benign _⟩)
      [[0, 0], [0, 2, 66], [67, 0, 0, 0], [1, 65]] (by decide)
  · exact ((c2_frames_dispatch dNone 0 [[66, 67], [65]]).2
      (by
        intro F hF
        simp only [List.mem_cons, List.not_mem_nil, or_false] at hF
        rcases hF with rfl | rfl
        · exact ⟨by decide, dNone_benign _⟩
        · exact ⟨by decide, dNone_benign _⟩)
      [[1, 1], [1]]
      (List.Forall₂.cons (by simp [Covers]) (List.Forall₂.cons (by simp [Covers])
        List.Forall₂.nil))).1

/-- Counterexample to C2 as stated: one frame with payload [65].  When each
recv returns the full header the threaded server dispatches it, but when the
recv schedule splits the 4-byte header 2+2 the same stream produces zero
Dispatch calls and the connection dies with struct.error, so the dispatch
count does depend on read-chunk boundaries in the threaded server. -/
theorem c2_split_header_counterexample :
    framesStream [[65]] = [0, 0, 0, 1, 65] ∧
      (threadedHandle dNone 2 (initT 0 (framesStream [[65]]) [4, 1])).1.dispatched = [[65]] ∧
      (threadedHandle dNone 2 (initT 0 (framesStream [[65]]) [2, 2, 1])).1.dispatched = [] ∧
      (threadedHandle dNone 2 (initT 0 (framesStream [[65]]) [2, 2, 1])).2 = TOutcome.errorClose :=
  ⟨by decide, by decide, by decide, by decide⟩

/-- C3 (amended): on the stream carrying a frame with payload "ABC" followed
by a zero-length frame, the threaded server invokes Dispatch twice, with
[65,66,67] then [], as the claim says; the asynchronous server however
invokes Dispatch only once, with [65,66,67]: for the zero-length frame
read_packetlen calls set_terminator(0), asynchat treats a terminator of 0 as
"no terminator", and read_milter_data never runs. -/
theorem c3_zero_length_frames (d : Dispatcher) (cid : Nat)
    (hb : BenignOn d [65, 66, 67]) (hb0 : BenignOn d []) :
    (threadedHandle d 3
        (initT cid (framesStream [[65, 66, 67], []]) (frameSched [[3], []]))).1.dispatched =
      [[65, 66, 67], []] ∧
    (runConn d cid [[0, 0, 0, 3, 65, 66, 67], [0, 0, 0, 0]]).dispatched = [[65, 66, 67]] := by
  constructor
  · have hmain := threadedHandle_frames d [[3], []] [[65, 66, 67], []]
      (List.Forall₂.cons (by simp [Covers]) (List.Forall₂.cons (by simp [Covers])
        List.Forall₂.nil))
      (by
        intro F hF
        simp only [List.mem_cons, List.not_mem_nil, or_false] at hF
        rcases hF with rfl | rfl
        · exact ⟨by decide, hb⟩
        · exact ⟨by decide, hb0⟩)
      cid [] [] []
    have h2 : (threadedHandle d 3
        (initT cid (framesStream [[65, 66, 67], []]) (frameSched [[3], []]))).1.dispatched =
        [] ++ [[65, 66, 67], []] :=
      congrArg (fun t => t.1.dispatched) hmain
    simpa using h2
  · have h := runConn_obs d cid [[0, 0, 0, 3, 65, 66, 67], [0, 0, 0, 0]]
    simp only [obsConn, Prod.mk.injEq] at h
    rw [h.1]
    have hflat : ([[0, 0, 0, 3, 65, 66, 67], [0, 0, 0, 0]] : List (List Nat)).flatten =
        encodeFrame [65, 66, 67] ++ pack32 0 := by decide
    rw [hflat, handleRead_append,
      handleRead_frame d _ _ (by simp [readyConn, initConn]) (by decide) (by decide),
      dispatchFrame_benign d _ _ hb,
      handleRead_header d _ 0 (by simp [initConn]) (by simp [initConn])
        (by simp [initConn]) (by simp [initConn])]
    simp [initConn]

/-- Witness for C3's amended statement, with the dispatcher that always
returns None. -/
theorem c3_zero_length_frames_witness :
    (threadedHandle dNone 3
        (initT 0 (framesStream [[65, 66, 67], []]) (frameSched [[3], []]))).1.dispatched =
      [[65, 66, 67], []] ∧
    (runConn dNone 0 [[0, 0, 0, 3, 65, 66, 67], [0, 0, 0, 0]]).dispatched = [[65, 66, 67]] :=
  c3_zero_length_frames dNone 0 (dNone_benign _) (dNone_benign _)

/-- Counterexample to C3 as stated: the same two frames in one read chunk on
the asynchronous server dispatch only [65,66,67]; the zero-length frame is
never handed to Dispatch, so Dispatch is invoked once, not twice. -/
theorem c3_zero_length_counterexample :
    (runConn dNone 0 [[0, 0, 0, 3, 65, 66, 67, 0, 0, 0, 0]]).dispatched = [[65, 66, 67]] ∧
      ¬((runConn dNone 0 [[0, 0, 0, 3, 65, 66, 67, 0, 0, 0, 0]]).dispatched =
        [[65, 66, 67], []]) :=
  ⟨by decide, by decide⟩

/-- C4: once Dispatch raises PpyMilterCloseConnection on a frame, the
connection stops.  Asynchronous server: the channel is closed, exactly that
frame was dispatched, nothing was written, the reason is the only log entry
— at informational level — and pending or later bytes change none of this
(the terminator stays 0, so they are only buffered; the closed channel is
out of the socket map).  Threaded server: handle breaks out of its loop with
the same single dispatch, no output, the same info log, and the bytes after
the frame are still unread on the socket; socketserver then closes it. -/
theorem c4_close_semantics (d : Dispatcher) (cid : Nat) (P buf p : List Nat)
    (reason : String) (hP : P ≠ []) (hL : P.length < 2 ^ 32)
    (hcov : Covers p P.length)
    (hd : d P = DispatchResult.closeSignal reason) :
    (∀ chunks : List (List Nat), chunks.flatten = encodeFrame P ++ buf →
      (runConn d cid chunks).closed = true ∧
        (runConn d cid chunks).dispatched = [P] ∧
        (runConn d cid chunks).output = [] ∧
        (runConn d cid chunks).log = [LogEntry.closeInfo reason]) ∧
    (LogEntry.closeInfo reason).level = LogLevel.info ∧
    threadedHandle d 1 (initT cid (encodeFrame P ++ buf) (MILTER_LEN_BYTES :: p)) =
      (⟨⟨buf, []⟩, [P], [], [LogEntry.closeInfo reason], cid⟩,
        TOutcome.cleanClose reason) := by
  refine ⟨?_, rfl, threadedHandle_close d 0 cid P buf p reason hL hcov hd⟩
  intro chunks hchunks
  have hcomp : obsConn (handleRead d (initConn cid) (encodeFrame P ++ buf)) =
      obsConn (dispatchFrame d (initConn cid) P) := by
    rw [handleRead_append, handleRead_frame d _ P (by simp [readyConn, initConn]) hP hL]
    exact (handleRead_bad d buf _ (Or.inr ⟨by
      rw [dispatchFrame_close d _ P reason hd], by
      rw [dispatchFrame_close d _ P reason hd]⟩)).1
  have h := ((runConn_obs d cid chunks).trans (by rw [hchunks])).trans hcomp
  rw [dispatchFrame_close d _ P reason hd] at h
  simp only [obsConn, Prod.mk.injEq] at h
  obtain ⟨h1, h2, h3, h4, h5⟩ := h
  refine ⟨?_, ?_, ?_, ?_⟩
  · rw [h3]
  · rw [h1]; simp [initConn]
  · rw [h2]; simp [initConn]
  · rw [h5]; simp [initConn]

/-- A dispatcher that always closes the connection, as a milter handler
raising PpyMilterCloseConnection would. -/
def dCloseEx : Dispatcher := fun _ => DispatchResult.closeSignal "quit"

/-- Witness for C4: frame [81] followed by two pending bytes, under both
servers. -/
theorem c4_close_semantics_witness :
    (runConn dCloseEx 0 [[0, 0, 0, 1, 81, 9], [9]]).closed = true ∧
      (runConn dCloseEx 0 [[0, 0, 0, 1, 81, 9], [9]]).dispatched = [[81]] ∧
      (runConn dCloseEx 0 [[0, 0, 0, 1, 81, 9], [9]]).output = [] ∧
      (runConn dCloseEx 0 [[0, 0, 0, 1, 81, 9], [9]]).log = [LogEntry.closeInfo "quit"] ∧
      threadedHandle dCloseEx 1 (initT 0 (encodeFrame [81] ++ [9, 9]) (MILTER_LEN_BYTES :: [1])) =
        (⟨⟨[9, 9], []⟩, [[81]], [], [LogEntry.closeInfo "quit"], 0⟩,
          TOutcome.cleanClose "quit") := by
  have h := c4_close_semantics dCloseEx 0 [81] [9, 9] [1] "quit"
    (by decide) (by decide) (by simp [Covers]) rfl
  obtain ⟨ha, _, ht⟩ := h
  have h2 := ha [[0, 0, 0, 1, 81, 9], [9]] (by decide)
  exact ⟨h2.1, h2.2.1, h2.2.2.1, h2.2.2.2, ht⟩

/-- C5 (amended): when Dispatch returns a list of K response payloads, all of
them nonempty, exactly those K frames — each with its own 4-byte big-endian
length prefix — are written contiguously in list order in both server
variants, and the connection resumes reading the next length header.  A list
containing an empty payload instead makes __send_response raise IndexError,
which aborts the connection with the earlier elements already written (see
the counterexample). -/
theorem c5_many_responses (d : Dispatcher) (cid : Nat) (P : List Nat)
    (rs : List (List Nat)) (hP : P ≠ []) (hL : P.length < 2 ^ 32)
    (hd : d P = DispatchResult.manyResponses rs) (hne : ∀ r ∈ rs, r ≠ []) :
    ((handleRead d (initConn cid) (encodeFrame P)).output = (rs.map encodeFrame).flatten ∧
      (handleRead d (initConn cid) (encodeFrame P)).errored = false ∧
      (handleRead d (initConn cid) (encodeFrame P)).phase = Phase.awaitLen ∧
      (handleRead d (initConn cid) (encodeFrame P)).terminator = MILTER_LEN_BYTES) ∧
    (threadedHandle d 2 (initT cid (framesStream [P]) (frameSched [[P.length]]))).1.output =
      (rs.map encodeFrame).flatten := by
  have hb : BenignOn d P := by
    constructor
    · intro reason h
      rw [hd] at h
      cases h
    · intro rs' h
      rw [hd] at h
      injection h with h'
      subst h'
      exact hne
  constructor
  · rw [handleRead_frame d _ P (by simp [readyConn, initConn]) hP hL,
      dispatchFrame_benign d _ P hb, hd]
    simp [initConn, respBytes]
  · have hmain := threadedHandle_frames d [[P.length]] [P]
      (List.Forall₂.cons ⟨List.length_pos.mpr hP, le_rfl, by simp [Covers]⟩ List.Forall₂.nil)
      (fun F hF => by
        simp only [List.mem_cons, List.not_mem_nil, or_false] at hF
        subst hF
        exact ⟨hL, hb⟩)
      cid [] [] []
    have h2 : (threadedHandle d 2
        (initT cid (framesStream [P]) (frameSched [[P.length]]))).1.output =
        [] ++ ([P].map (fun F => respBytes (d F))).flatten :=
      congrArg (fun t => t.1.output) hmain
    rw [h2]
    simp [hd, respBytes]

/-- A dispatcher that returns two responses for every frame. -/
def dTwoResp : Dispatcher := fun _ => DispatchResult.manyResponses [[82], [83, 84]]

/-- Witness for C5: two nonempty responses to frame [65] come back as two
length-prefixed frames, in order, in both variants. -/
theorem c5_many_responses_witness :
    (handleRead dTwoResp (initConn 0) (encodeFrame [65])).output =
        (([[82], [83, 84]] : List (List Nat)).map encodeFrame).flatten ∧
      (threadedHandle dTwoResp 2 (initT 0 (framesStream [[65]]) (frameSched [[1]]))).1.output =
        (([[82], [83, 84]] : List (List Nat)).map encodeFrame).flatten := by
  have h := c5_many_responses dTwoResp 0 [65] [[82], [83, 84]]
    (by decide) (by decide) rfl
    (by
      intro r hr
      simp only [List.mem_cons, List.not_mem_nil, or_false] at hr
      rcases hr with rfl | rfl <;> decide)
  exact ⟨h.1.1, h.2⟩

/-- A dispatcher that answers every frame with a list containing one empty
response. -/
def dEmptyMany : Dispatcher := fun _ => DispatchResult.manyResponses [[]]

/-- Counterexample to C5 as stated: a list of K = 1 payloads whose element is
empty.  Instead of one frame being written, nothing is written at all and
both variants abort the connection on the IndexError from __send_response. -/
theorem c5_empty_payload_counterexample :
    (handleRead dEmptyMany (initConn 0) (encodeFrame [65])).output = [] ∧
      (handleRead dEmptyMany (initConn 0) (encodeFrame [65])).errored = true ∧
      (threadedHandle dEmptyMany 2 (initT 0 (encodeFrame [65]) [])).1.output = [] ∧
      (threadedHandle dEmptyMany 2 (initT 0 (encodeFrame [65]) [])).2 = TOutcome.errorClose :=
  ⟨by decide, by decide, by decide, by decide⟩

/-- C6 (amended): a truthy — that is, non-empty — single response from
Dispatch is encoded and written as exactly one frame, and the connection
resumes reading the next length header; but an empty single response is
falsy in `elif response:`, so exactly like NoResponse nothing at all is
written — `only the NoResponse outcome results in nothing being written`
fails for it (see the counterexample). -/
theorem c6_single_response (d : Dispatcher) (cid : Nat) (P r : List Nat)
    (hP : P ≠ []) (hL : P.length < 2 ^ 32) :
    (d P = DispatchResult.oneResponse r →
      (handleRead d (initConn cid) (encodeFrame P)).output =
          (if r = [] then [] else encodeFrame r) ∧
        (handleRead d (initConn cid) (encodeFrame P)).errored = false ∧
        (handleRead d (initConn cid) (encodeFrame P)).phase = Phase.awaitLen ∧
        (handleRead d (initConn cid) (encodeFrame P)).terminator = MILTER_LEN_BYTES ∧
        (threadedHandle d 2 (initT cid (framesStream [P]) (frameSched [[P.length]]))).1.output =
          (if r = [] then [] else encodeFrame r)) ∧
    (d P = DispatchResult.noResponse →
      (handleRead d (initConn cid) (encodeFrame P)).output = [] ∧
        (threadedHandle d 2
          (initT cid (framesStream [P]) (frameSched [[P.length]]))).1.output = []) := by
  constructor
  · intro hd
    have hb : BenignOn d P := by
      constructor
      · intro reason h
        rw [hd] at h
        cases h
      · intro rs' h
        rw [hd] at h
        cases h
    have hmain := threadedHandle_frames d [[P.length]] [P]
      (List.Forall₂.cons ⟨List.length_pos.mpr hP, le_rfl, by simp [Covers]⟩ List.Forall₂.nil)
      (fun F hF => by
        simp only [List.mem_cons, List.not_mem_nil, or_false] at hF
        subst hF
        exact ⟨hL, hb⟩)
      cid [] [] []
    have h2 : (threadedHandle d 2
        (initT cid (framesStream [P]) (frameSched [[P.length]]))).1.output =
        [] ++ ([P].map (fun F => respBytes (d F))).flatten :=
      congrArg (fun t => t.1.output) hmain
    rw [handleRead_frame d _ P (by simp [readyConn, initConn]) hP hL,
      dispatchFrame_benign d _ P hb, hd, h2]
    simp [hd, initConn, respBytes]
  · intro hd
    have hb : BenignOn d P := by
      constructor
      · intro reason h
        rw [hd] at h
        cases h
      · intro rs' h
        rw [hd] at h
        cases h
    have hmain := threadedHandle_frames d [[P.length]] [P]
      (List.Forall₂.cons ⟨List.length_pos.mpr hP, le_rfl, by simp [Covers]⟩ List.Forall₂.nil)
      (fun F hF => by
        simp only [List.mem_cons, List.not_mem_nil, or_false] at hF
        subst hF
        exact ⟨hL, hb⟩)
      cid [] [] []
    have h2 : (threadedHandle d 2
        (initT cid (framesStream [P]) (frameSched [[P.length]]))).1.output =
        [] ++ ([P].map (fun F => respBytes (d F))).flatten :=
      congrArg (fun t => t.1.output) hmain
    rw [handleRead_frame d _ P (by simp [readyConn, initConn]) hP hL,
      dispatchFrame_benign d _ P hb, hd, h2]
    simp [hd, initConn, respBytes]

/-- A dispatcher that answers every frame with the single response [82]
(the spec's scenario A). -/
def dOneResp : Dispatcher := fun _ => DispatchResult.oneResponse [82]

/-- Witness for C6: the single response [82] to frame [72,69,76,79,49]
(scenario A) produces exactly the frame 0x00000001 ++ "R" in both
variants. -/
theorem c6_single_response_witness :
    (handleRead dOneResp (initConn 0) (encodeFrame [72, 69, 76, 79, 49])).output =
        [0, 0, 0, 1, 82] ∧
      (threadedHandle dOneResp 2
        (initT 0 (framesStream [[72, 69, 76, 79, 49]]) (frameSched [[5]]))).1.output =
        [0, 0, 0, 1, 82] := by
  have h := (c6_single_response dOneResp 0 [72, 69, 76, 79, 49] [82]
    (by decide) (by decide)).1 rfl
  have hif : (if ([82] : List Nat) = [] then ([] : List Nat) else encodeFrame [82]) =
      [0, 0, 0, 1, 82] := by decide
  refine ⟨by rw [h.1, hif], ?_⟩
  have h5 := h.2.2.2.2
  rw [hif] at h5
  exact h5

/-- A dispatcher that answers every frame with an empty single response. -/
def dEmptyOne : Dispatcher := fun _ => DispatchResult.oneResponse []

/-- Counterexample to C6 as stated: an empty single response payload.  The
claim requires the connection to encode it and write one frame — which
would be the 4 bytes 0x00000000 — but being falsy it writes nothing, in
both variants, without any error. -/
theorem c6_empty_single_counterexample :
    (handleRead dEmptyOne (initConn 0) (encodeFrame [65])).output = [] ∧
      (handleRead dEmptyOne (initConn 0) (encodeFrame [65])).errored = false ∧
      encodeFrame [] = [0, 0, 0, 0] ∧
      (threadedHandle dEmptyOne 2 (initT 0 (encodeFrame [65]) [])).1.output = [] :=
  ⟨by decide, by decide, by decide, by decide⟩

/-- C7: failures stay inside one connection.  (a) A read event for
connection i changes no other connection's entry in the socket map and
never the listener's state; (b) an accept event leaves every existing
connection untouched; (c) in the threaded server a malformed length header
— a recv that does not return exactly 4 bytes, e.g. a peer disconnecting
mid-header — ends only that handler, the uncaptured exception being logged
at error level together with the connection identity, and the handler
returns instead of propagating; (d) in the asynchronous server an
IndexError escaping __send_response (empty payload inside a list response)
marks only that channel errored and closed and logs it at error level with
the channel identity. -/
theorem c7_failure_isolation :
    (∀ (d : Dispatcher) (sys : AsyncSystem) (i : Nat) (c : List Nat) (j : Nat), j ≠ i →
      (sysStep d sys (SysEvent.readEv i c)).conns[j]? = sys.conns[j]? ∧
        (sysStep d sys (SysEvent.readEv i c)).listener = sys.listener) ∧
    (∀ (d : Dispatcher) (sys : AsyncSystem) (e : AcceptEvent) (j : Nat), j < sys.conns.length →
      (sysStep d sys (SysEvent.acceptEv e)).conns[j]? = sys.conns[j]?) ∧
    (∀ (d : Dispatcher) (fuel : Nat) (ts : TState),
      (recvSock ts.sock MILTER_LEN_BYTES).1.length ≠ MILTER_LEN_BYTES →
      (threadedHandle d (fuel + 1) ts).2 = TOutcome.errorClose ∧
        (threadedHandle d (fuel + 1) ts).1.log = ts.log ++ [LogEntry.connError ts.cid] ∧
        (LogEntry.connError ts.cid).level = LogLevel.error) ∧
    (∀ (d : Dispatcher) (st : ConnState) (P : List Nat) (rs : List (List Nat)),
      d P = DispatchResult.manyResponses rs → [] ∈ rs →
      (dispatchFrame d st P).errored = true ∧ (dispatchFrame d st P).closed = true ∧
        (dispatchFrame d st P).log = st.log ++ [LogEntry.connError st.cid] ∧
        (LogEntry.connError st.cid).level = LogLevel.error) := by
  refine ⟨?_, ?_, ?_, ?_⟩
  · intro d sys i c j hj
    exact ⟨updateAt_ne sys.conns i j _ hj, rfl⟩
  · intro d sys e j hj
    cases e with
    | conn => exact List.getElem?_append_left hj
    | noneEv => rfl
    | sockError => rfl
  · intro d fuel ts h
    rw [threadedHandle_headerError d fuel ts h]
    exact ⟨rfl, rfl, rfl⟩
  · intro d st P rs hd hmem
    obtain ⟨h1, h2, h3⟩ := dispatchFrame_manyErr d st P rs hd hmem
    exact ⟨h1, h2, h3, rfl⟩

/-- Witness for C7 at concrete inputs: two live connections with a read for
connection 0, an accept while both are live, a threaded handler whose peer
closes mid-header, and a channel whose dispatcher returns a list holding an
empty response. -/
theorem c7_failure_isolation_witness :
    ((sysStep dNone ⟨initListener, [initConn 0, initConn 1]⟩
          (SysEvent.readEv 0 [0])).conns[1]? =
        ([initConn 0, initConn 1] : List ConnState)[1]? ∧
      (sysStep dNone ⟨initListener, [initConn 0, initConn 1]⟩
          (SysEvent.readEv 0 [0])).listener = initListener) ∧
      (sysStep dNone ⟨initListener, [initConn 0, initConn 1]⟩
          (SysEvent.acceptEv AcceptEvent.conn)).conns[0]? =
        ([initConn 0, initConn 1] : List ConnState)[0]? ∧
      (threadedHandle dNone 1 (initT 5 [0, 0] [])).2 = TOutcome.errorClose ∧
      (threadedHandle dNone 1 (initT 5 [0, 0] [])).1.log = [] ++ [LogEntry.connError 5] ∧
      (dispatchFrame dEmptyMany (initConn 7) [65]).errored = true ∧
      (dispatchFrame dEmptyMany (initConn 7) [65]).closed = true := by
  obtain ⟨ha, hb, hc, hd2⟩ := c7_failure_isolation
  refine ⟨ha dNone ⟨initListener, [initConn 0, initConn 1]⟩ 0 [0] 1 (by decide),
    hb dNone ⟨initListener, [initConn 0, initConn 1]⟩ AcceptEvent.conn 0 (by decide),
    (hc dNone 0 (initT 5 [0, 0] []) (by decide)).1,
    (hc dNone 0 (initT 5 [0, 0] []) (by decide)).2.1,
    (hd2 dEmptyMany (initConn 7) [65] [[]] rfl (by decide)).1,
    (hd2 dEmptyMany (initConn 7) [65] [[]] rfl (by decide)).2.1⟩

/-- C8: the listener never stops serving because one accept failed.  Over any
sequence of accept outcomes, the constructed connection handlers are exactly
one per successful accept, in order — transient socket errors in accept()
only add an error-level log entry and change nothing else — so the very next
incoming connection after a failed accept is still accepted and handled. -/
theorem c8_accept_errors (events : List AcceptEvent) :
    (events.foldl handleAccept initListener).handlers =
        List.range (events.count AcceptEvent.conn) ∧
      (events.foldl handleAccept initListener).log =
        List.replicate (events.count AcceptEvent.sockError) LogEntry.acceptError ∧
      LogEntry.acceptError.level = LogLevel.error := by
  obtain ⟨h1, h2, h3⟩ := handleAccept_run events initListener
  refine ⟨?_, ?_, rfl⟩
  · rw [h1]
    simp [initListener, List.range_eq_range']
  · rw [h2]
    simp [initListener]

/-- C9 (amended): given a bare numeric port both servers bind all interfaces
('' as host) and enable address reuse; the asynchronous server's accept
backlog defaults to 1024 (max_queued_connections), but the threaded server
never configures a backlog and inherits the socketserver library default of
5, not 1024. -/
theorem c9_server_construction (port : Nat) :
    asyncServerConfigDefault port =
        { bindHost := "", bindPort := port, reuseAddr := true, backlog := 1024 } ∧
      threadedServerConfig port =
        { bindHost := "", bindPort := port, reuseAddr := true, backlog := 5 } :=
  ⟨rfl, rfl⟩

/-- Counterexample to C9 as stated: the threaded server's listen backlog is
the socketserver default 5, not 1024. -/
theorem c9_backlog_counterexample :
    (threadedServerConfig 9999).backlog = 5 ∧
      ¬((threadedServerConfig 9999).backlog = 1024) :=
  ⟨by decide, by decide⟩

/-- C10: __send_response pushes the 4-byte length prefix followed by the full
payload for every non-empty response; on an empty response it raises
IndexError evaluating response[0] for the debug log, before anything is
pushed.  A many-responses list starting with an empty payload therefore
aborts the connection through the per-connection failure path with nothing
written, in both server variants. -/
theorem c10_send_response (r : List Nat) :
    (r ≠ [] → sendResponse r = some (pack32 r.length ++ r)) ∧
      sendResponse [] = none ∧
      (∀ (out : List Nat) (rs : List (List Nat)), sendMany out ([] :: rs) = (out, false)) ∧
      (∀ (d : Dispatcher) (cid : Nat) (P : List Nat) (rs : List (List Nat)),
        P ≠ [] → P.length < 2 ^ 32 → d P = DispatchResult.manyResponses ([] :: rs) →
        (handleRead d (initConn cid) (encodeFrame P)).errored = true ∧
          (handleRead d (initConn cid) (encodeFrame P)).closed = true ∧
          (handleRead d (initConn cid) (encodeFrame P)).output = [] ∧
          (handleRead d (initConn cid) (encodeFrame P)).log = [LogEntry.connError cid]) ∧
      (∀ (d : Dispatcher) (cid fuel : Nat) (P rest p : List Nat) (rs : List (List Nat)),
        P.length < 2 ^ 32 → Covers p P.length →
        d P = DispatchResult.manyResponses ([] :: rs) →
        threadedHandle d (fuel + 1)
            (initT cid (encodeFrame P ++ rest) (MILTER_LEN_BYTES :: p)) =
          (⟨⟨rest, []⟩, [P], [], [LogEntry.connError cid], cid⟩, TOutcome.errorClose)) := by
  refine ⟨fun h => sendResponse_of_ne r h, rfl, fun out rs => rfl, ?_, ?_⟩
  · intro d cid P rs hP hL hd
    rw [handleRead_frame d _ P (by simp [readyConn, initConn]) hP hL,
      dispatchFrame_emptyHead d _ P rs hd]
    simp [initConn]
  · intro d cid fuel P rest p rs hL hcov hd
    exact threadedHandle_manyErrHead d fuel cid P rest p rs hL hcov hd

/-- Witness for C10: the non-empty response [82,83] is prefixed and written
whole; the list [b""] response to frame [65] aborts both variants with
nothing written. -/
theorem c10_send_response_witness :
    sendResponse [82, 83] = some (pack32 ([82, 83] : List Nat).length ++ [82, 83]) ∧
      (handleRead dEmptyMany (initConn 3) (encodeFrame [65])).errored = true ∧
      (handleRead dEmptyMany (initConn 3) (encodeFrame [65])).output = [] ∧
      threadedHandle dEmptyMany 1 (initT 3 (encodeFrame [65] ++ []) (MILTER_LEN_BYTES :: [1])) =
        (⟨⟨[], []⟩, [[65]], [], [LogEntry.connError 3], 3⟩, TOutcome.errorClose) := by
  obtain ⟨h1, _, _, h4, h5⟩ := c10_send_response [82, 83]
  exact ⟨h1 (by decide),
    (h4 dEmptyMany 3 [65] [] (by decide) (by decide) rfl).1,
    (h4 dEmptyMany 3 [65] [] (by decide) (by decide) rfl).2.2.1,
    h5 dEmptyMany 3 0 [65] [] [1] [] (by decide) (by simp [Covers]) rfl⟩

